import Mathlib

/-!
# DHT22 sensor library for the Raspberry Pi Pico: acquisition coordinator

A shallow embedding of `dht22/dht22.c` and `dht22/dht22.h`.

* The file-scope globals of `dht22.c` (`sm`, `offset`, `dht22_pin`, `is_init`,
  `in_progress`, `data`, `debug`) and the part of the PIO block the library
  touches (the two FIFOs, the IRQ0 flag, the interrupt routing) form one
  `State` record; every C function becomes a function on `State`.
* Machine integers are `Nat` with explicit truncation (`% 256`, `% 65536`).
* The two `float` members of `dht22data_t` are carried as rationals. Every
  operand of the decoder is an integer below `2 ^ 16`, exact in binary32, so
  the only rounding is that of the final `/10.f`; it is the parameter `rnd`
  of the decoder: `binary32` on the target, the identity when the values are
  read over exact rationals.
* Console output (`printf`) is not modelled.
* `data` is one object laid out as `struct dht22data` declares it, on a
  little-endian target: `raw_data[0..2]` occupy bytes 0 to 5,
  `calculated_checksum` is byte 6. The expression `data.raw_data[i]` is a
  16-bit access at byte offset `2 * i` of that object, so `raw_data[3]`, which
  ISO C leaves undefined, is the pair of bytes 6 and 7 (flat block memory).
  Which member owns byte 7 depends on how the compiler sizes
  `enum dht22_status`; both choices are covered (`EnumSize`).
* The global `pio` is the constant `pio0` after `dht22_init` and is not carried.
* A call that cannot complete without another party acting (a blocking acquire
  with no permit, a blocking FIFO read with nothing to take, a blocking FIFO
  write with no free slot) and an access beyond the modelled bytes return
  `none`.
-/

namespace DHT22

/-! ## `dht22.h`: enumerations -/

/-- C enumerators are integers; `dht22_status_t` values are stored as their code. -/
abbrev dht22_status_t := Nat

abbrev INIT_OK : dht22_status_t := 0
abbrev INIT_ALREADY : dht22_status_t := 1
abbrev NOT_INIT : dht22_status_t := 2
abbrev STARTED_OK : dht22_status_t := 3
abbrev STARTED_ALREADY : dht22_status_t := 4
abbrev DATA_NONE : dht22_status_t := 5
abbrev DATA_RAW : dht22_status_t := 6
abbrev DATA_OK : dht22_status_t := 7
abbrev DATA_CHECKSUM_FAIL : dht22_status_t := 8
abbrev NOT_ENOUGH_DATA_IN_FIFO : dht22_status_t := 9
abbrev PIO_RESET : dht22_status_t := 10

/-- Start pulse lengths, `enum dht22_start_ms`. -/
abbrev dht22_start_ms_t := Nat

abbrev DHT22_1MS : dht22_start_ms_t := 300
abbrev DHT22_2MS : dht22_start_ms_t := 600
abbrev DHT22_3MS : dht22_start_ms_t := 900
abbrev DHT22_4MS : dht22_start_ms_t := 1200
abbrev DHT22_5MS : dht22_start_ms_t := 1500

/-- Position of the raw data within the array, `enum dht22_raw`. -/
abbrev dht22_raw_t := Nat

abbrev HUMIDITY : dht22_raw_t := 0
abbrev TEMP : dht22_raw_t := 1
abbrev CHECKSUM : dht22_raw_t := 3

/-! ## `dht22.h`: `struct dht22data` -/

/-- Size chosen by the compiler for `enum dht22_status`: one byte (short
enums, the bare-metal ARM EABI default) or a four-byte `int`. With `byte` the
member `status` sits at offset 7 of `struct dht22data`; with `word` offset 7
is padding and `status` starts at offset 8. -/
inductive EnumSize where
  | byte
  | word
deriving DecidableEq, Repr

/-- The record `dht22data_t`. `raw_data0`, `raw_data1`, `raw_data2` are the three
elements of `uint16_t raw_data[3]`; `pad7` is the padding byte at offset 7
that exists when the enum is `int`-sized. -/
structure dht22data where
  raw_data0 : Nat
  raw_data1 : Nat
  raw_data2 : Nat
  calculated_checksum : Nat
  pad7 : Nat
  status : dht22_status_t
  temperature : ℚ
  humidity : ℚ
deriving DecidableEq

/-- Element count of `uint16_t raw_data[3]`. -/
abbrev RAW_DATA_LEN : Nat := 3

/-- Bounds-checked element of `raw_data`: `none` when the index is not below
the declared length. -/
def raw_data_elem (d : dht22data) (i : Nat) : Option Nat :=
  if i < RAW_DATA_LEN then
    match i with
    | 0 => some d.raw_data0
    | 1 => some d.raw_data1
    | _ => some d.raw_data2
  else none

/-- Byte 7 of the object: `status` for a one-byte enum, padding otherwise. -/
def byte7 (abi : EnumSize) (d : dht22data) : Nat :=
  match abi with
  | EnumSize.byte => d.status % 256
  | EnumSize.word => d.pad7 % 256

/-- The load `data.raw_data[i]`: the array element when `i` is in range, the
halfword at bytes 6 and 7 when `i = 3`, and no value beyond that. -/
def load_raw (abi : EnumSize) (d : dht22data) (i : Nat) : Option Nat :=
  match raw_data_elem d i with
  | some w => some w
  | none =>
    if i = 3 then some (d.calculated_checksum % 256 + 256 * byte7 abi d)
    else none

/-- The store `data.raw_data[i] = v` (`v` already truncated to 16 bits by the
caller): the array element when `i` is in range, bytes 6 and 7 when `i = 3`. -/
def store_raw (abi : EnumSize) (d : dht22data) (i : Nat) (v : Nat) : Option dht22data :=
  match i with
  | 0 => some { d with raw_data0 := v }
  | 1 => some { d with raw_data1 := v }
  | 2 => some { d with raw_data2 := v }
  | 3 =>
    match abi with
    | EnumSize.byte => some { d with calculated_checksum := v % 256, status := v / 256 % 256 }
    | EnumSize.word => some { d with calculated_checksum := v % 256, pad7 := v / 256 % 256 }
  | _ => none

/-! ## Pico SDK primitives used by the library -/

/-- Counting semaphore of `pico/sync.h`. -/
structure semaphore_t where
  permits : Nat
  max_permits : Nat
deriving DecidableEq, Repr

def sem_init (initial_permits max_permits : Nat) : semaphore_t :=
  { permits := initial_permits, max_permits := max_permits }

def sem_available (sem : semaphore_t) : Nat := sem.permits

/-- Adds a permit unless the maximum is already held. -/
def sem_release (sem : semaphore_t) : semaphore_t :=
  if sem.permits < sem.max_permits then { sem with permits := sem.permits + 1 } else sem

/-- Takes a permit; `none` when there is none to take (the caller would block). -/
def sem_acquire_blocking (sem : semaphore_t) : Option semaphore_t :=
  if 0 < sem.permits then some { sem with permits := sem.permits - 1 } else none

/-- Bounded acquire with nothing else running during the wait: succeeds
exactly when a permit is present. A handler that fires during the wait is the
same as `pio_irq` run just before the call. -/
def sem_acquire_timeout_ms (sem : semaphore_t) : Bool × semaphore_t :=
  if 0 < sem.permits then (true, { sem with permits := sem.permits - 1 }) else (false, sem)

/-- Globals of `dht22.c` together with the hardware the library drives.
`tx_fifo` holds the words written and not yet taken by the state machine,
`rx_fifo` the words waiting to be read, `program_inits` counts calls of
`dht22pio_program_init`. -/
structure State where
  sm : Nat
  offset : Nat
  dht22_pin : Nat
  is_init : Bool
  in_progress : semaphore_t
  data : dht22data
  debug : Bool
  irq_enabled : Bool
  irq_handler_set : Bool
  tx_fifo : List Nat
  rx_fifo : List Nat
  irq0_raised : Bool
  program_inits : Nat
  sm_pin : Nat
deriving DecidableEq

def pio_sm_get_rx_fifo_level (s : State) : Nat := s.rx_fifo.length

/-- Reads one word from the RX FIFO; `none` when it is empty (would block). -/
def pio_sm_get_blocking (s : State) : Option (Nat × State) :=
  match s.rx_fifo with
  | [] => none
  | w :: rest => some (w, { s with rx_fifo := rest })

/-- Depth of the TX FIFO of one state machine (the FIFOs are not joined:
`dht22.h` gives the RX FIFO as four words deep). -/
abbrev TX_FIFO_DEPTH : Nat := 4

/-- Writes one word to the TX FIFO; `none` when the FIFO is full: the call
waits until the state machine takes a word, for ever when it is stuck. -/
def pio_sm_put_blocking (s : State) (v : Nat) : Option State :=
  if s.tx_fifo.length < TX_FIFO_DEPTH then some { s with tx_fifo := s.tx_fifo ++ [v] }
  else none

/-- Empties both FIFOs of the state machine. -/
def pio_sm_clear_fifos (s : State) : State :=
  { s with tx_fifo := [], rx_fifo := [] }

def pio_interrupt_clear (s : State) : State :=
  { s with irq0_raised := false }

/-- Modelled from the spec: `dht22pio_program_init` comes from the generated
header `dht22.pio.h`, which is not among the sources. It re-initialises the
sequencer for the given pin; the model records the call and the pin. -/
def dht22pio_program_init (s : State) (pin : Nat) : State :=
  { s with program_inits := s.program_inits + 1, sm_pin := pin }

/-- The timing engine takes the oldest word of the TX FIFO (its `pull`). -/
def engine_pull (s : State) : State :=
  { s with tx_fifo := s.tx_fifo.tail }

/-- The timing engine completes a cycle: it has pushed `ws` into the RX FIFO
and raises IRQ0. -/
def engine_done (ws : List Nat) (s : State) : State :=
  { s with rx_fifo := s.rx_fifo ++ ws, irq0_raised := true }

/-! ## `dht22.c` -/

/-- IRQ0 handler. -/
def pio_irq (abi : EnumSize) (s : State) : Option State := do
  let v := pio_sm_get_rx_fifo_level s
  let s1 ←
    if v = 3 then do
      let (w0, sa) ← pio_sm_get_blocking s
      let d0 ← store_raw abi sa.data HUMIDITY (w0 % 65536)
      let sa := { sa with data := d0 }
      let (w1, sb) ← pio_sm_get_blocking sa
      let d1 ← store_raw abi sb.data TEMP (w1 % 65536)
      let sb := { sb with data := d1 }
      let (w2, sc) ← pio_sm_get_blocking sb
      let d2 ← store_raw abi sc.data CHECKSUM (w2 % 65536)
      pure { sc with data := { d2 with status := DATA_RAW } }
    else
      pure (pio_sm_clear_fifos s)
  let s2 := { s1 with in_progress := sem_release s1.in_progress }
  pure (pio_interrupt_clear s2)

/-- Initialisation. `claimed_offset` and `claimed_sm` are the values returned by
`pio_add_program` and `pio_claim_unused_sm`. -/
def dht22_init (pin : Nat) (debugOn : Bool) (claimed_offset claimed_sm : Nat) (s : State) :
    dht22_status_t × State :=
  if !s.is_init then
    let s := { s with debug := debugOn }
    let s := { s with irq_enabled := true }
    let s := { s with irq_handler_set := true }
    let s := { s with offset := claimed_offset }
    let s := { s with sm := claimed_sm }
    let s := dht22pio_program_init s (pin % 256)
    let s := { s with dht22_pin := pin % 256 }
    let s := { s with in_progress := sem_init 0 1 }
    let s := if sem_available s.in_progress = 0 then
        { s with in_progress := sem_release s.in_progress } else s
    let s := { s with is_init := true }
    let s := { s with data := { s.data with status := DATA_NONE } }
    (INIT_OK, s)
  else
    (INIT_ALREADY, s)

/-- Starts a conversion. -/
def dht22_start (low_ms : dht22_start_ms_t) (s : State) : Option (dht22_status_t × State) :=
  if s.is_init then
    if sem_available s.in_progress ≠ 0 then
      match pio_sm_put_blocking s low_ms with
      | some s =>
        match sem_acquire_blocking s.in_progress with
        | some sem => some (STARTED_OK, { s with in_progress := sem })
        | none => none
      | none => none
    else
      some (STARTED_ALREADY, s)
  else
    some (NOT_INIT, s)

/-- Resets and restarts the PIO state machine. -/
def dht22_reset (s : State) : State :=
  let s := pio_sm_clear_fifos s
  dht22pio_program_init s s.dht22_pin

/-- Rounds `p / q` to the nearest integer, ties to the even one. -/
def rne (p q : Nat) : Nat :=
  let n := p / q
  let r := p % q
  if 2 * r < q then n else if q < 2 * r then n + 1 else if n % 2 = 0 then n else n + 1

/-- Number of fraction bits of the binary32 nearest to `p / q`: the scaled
significand lies in `[2 ^ 23, 2 ^ 24)`, with at most 149 bits (subnormals). -/
def binary32_shift (p q : Nat) : Nat :=
  let sh0 := 23 + Nat.log2 q - Nat.log2 p
  let sh := if q * 2 ^ 23 ≤ p * 2 ^ sh0 then sh0 else sh0 + 1
  min sh 149

/-- IEEE 754 binary32 value of a real of magnitude below `2 ^ 24`: round to
nearest, ties to even. This is the result of the `float` division `n / 10.f`
for an integer `n` below `2 ^ 16` in magnitude. -/
@[irreducible]
def binary32 (x : ℚ) : ℚ :=
  if x = 0 then 0 else
    let p := x.num.natAbs
    let q := x.den
    let sh := binary32_shift p q
    (if x < 0 then (-1 : ℚ) else 1) * ((rne (p * 2 ^ sh) q : Nat) : ℚ) / ((2 ^ sh : Nat) : ℚ)

/-- The body of `if (data.status == DATA_RAW) { ... }`, lines 111 to 132. `rnd` is
the rounding of the two `float` divisions by `10.f`. -/
def decode_raw (rnd : ℚ → ℚ) (abi : EnumSize) (d : dht22data) : Option dht22data := do
  let hum ← load_raw abi d HUMIDITY
  let raw_rh_hi := ((hum &&& (0xff <<< 8)) >>> 8) % 256
  let hum ← load_raw abi d HUMIDITY
  let raw_rh_low := (hum &&& 0xff) % 256
  let tmp ← load_raw abi d TEMP
  let raw_temp_hi := ((tmp &&& (0xff <<< 8)) >>> 8) % 256
  let tmp ← load_raw abi d TEMP
  let raw_temp_low := (tmp &&& 0xff) % 256
  let cs ← load_raw abi d CHECKSUM
  let d ← store_raw abi d CHECKSUM (cs &&& 0xff)
  let calcd_cs := (raw_rh_hi + raw_rh_low + raw_temp_hi + raw_temp_low) % 256
  let d := { d with calculated_checksum := calcd_cs }
  let cs ← load_raw abi d CHECKSUM
  if calcd_cs = cs then do
    let negativeTemp : ℚ := if raw_temp_hi > 0x7f then -1 else 1
    let d := { d with
      temperature :=
        rnd (negativeTemp * (((raw_temp_hi &&& 0x7f) * 256 + raw_temp_low : Nat) : ℚ) / 10) }
    let hum ← load_raw abi d HUMIDITY
    let d := { d with humidity := rnd ((hum : ℚ) / 10) }
    pure { d with status := DATA_OK }
  else
    pure { d with status := DATA_CHECKSUM_FAIL }

/-- Collects the measured data; returns the copy of `data` handed to the caller
and the state left behind. -/
def dht22_get_data_blocking (rnd : ℚ → ℚ) (abi : EnumSize) (reset_on_failure : Bool)
    (s : State) : Option (dht22data × State) := do
  let s1 ←
    match sem_acquire_timeout_ms s.in_progress with
    | (true, sem) =>
      let s := { s with in_progress := sem }
      if s.data.status = DATA_RAW then do
        let d ← decode_raw rnd abi s.data
        pure { s with data := d }
      else
        pure s
    | (false, sem) =>
      let s := { s with in_progress := sem }
      let s := if reset_on_failure then dht22_reset s else s
      pure { s with data := { s.data with status := PIO_RESET } }
  let s2 := { s1 with in_progress := sem_release s1.in_progress }
  pure (s2.data, s2)

/-! ## Sequences of calls -/

/-- One step of a run of the library: an API call, the engine taking a TX word
or finishing a cycle, or the interrupt handler. -/
inductive Op where
  | init (pin : Nat) (debugOn : Bool) (claimed_offset claimed_sm : Nat)
  | start (low_ms : dht22_start_ms_t)
  | pull
  | engine (ws : List Nat)
  | irq
  | get (reset_on_failure : Bool)
  | reset
deriving DecidableEq, Repr

def step (rnd : ℚ → ℚ) (abi : EnumSize) (o : Op) (s : State) : Option State :=
  match o with
  | Op.init pin dbg off sm => some (dht22_init pin dbg off sm s).2
  | Op.start low_ms => (dht22_start low_ms s).map Prod.snd
  | Op.pull => some (engine_pull s)
  | Op.engine ws => some (engine_done ws s)
  | Op.irq => pio_irq abi s
  | Op.get r => (dht22_get_data_blocking rnd abi r s).map Prod.snd
  | Op.reset => some (dht22_reset s)

/-- Runs the steps in order; `none` as soon as a call does not return. -/
def run (rnd : ℚ → ℚ) (abi : EnumSize) : List Op → State → Option State
  | [], s => some s
  | o :: os, s => (step rnd abi o s).bind (run rnd abi os)

/-- State of the program image before `main` runs: zeroed globals, `is_init`
and `debug` false, idle hardware. -/
def boot : State :=
  { sm := 0, offset := 0, dht22_pin := 0, is_init := false,
    in_progress := { permits := 0, max_permits := 0 },
    data := { raw_data0 := 0, raw_data1 := 0, raw_data2 := 0, calculated_checksum := 0,
              pad7 := 0, status := 0, temperature := 0, humidity := 0 },
    debug := false, irq_enabled := false, irq_handler_set := false,
    tx_fifo := [], rx_fifo := [], irq0_raised := false, program_inits := 0, sm_pin := 0 }

/-- A state in which `dht22_init` has succeeded: the semaphore was created
with one slot and holds at most one permit. -/
def Initialised (s : State) : Prop :=
  s.is_init = true ∧ s.in_progress.max_permits = 1 ∧ s.in_progress.permits ≤ 1

instance (s : State) : Decidable (Initialised s) := by
  unfold Initialised; infer_instance

/-! ## Decoder of section 4.2 of the specification -/

/-- Temperature of section 4.2, from the two temperature bytes: sign from bit 7
of the high byte, magnitude from the remaining fifteen bits, in tenths. -/
def spec_temperature (t_hi t_lo : Nat) : ℚ :=
  (if t_hi / 128 % 2 = 1 then (-1 : ℚ) else 1) * (((t_hi % 128) * 256 + t_lo : Nat) : ℚ) / 10

/-- Humidity of section 4.2: `humidity_raw / 10`. -/
def spec_humidity (humidity_raw : Nat) : ℚ := (humidity_raw : ℚ) / 10

/-! ## Concrete states used as inputs -/

/-- State after the call `dht22_init(26, true)` of `main.c` on the boot image. -/
def init_state : State := (dht22_init 26 true 0 0 boot).2

/-- One acquisition up to the handler: `dht22_start(DHT22_2MS)`, the engine
pushes the words `h`, `t`, `c` and raises IRQ0, `pio_irq` runs. -/
def delivered (abi : EnumSize) (h t c : Nat) : Option State :=
  run binary32 abi [Op.start DHT22_2MS, Op.engine [h, t, c], Op.irq] init_state

/-- State in which the handler has stored the frame `h`, `t`, `c` (`boot` when
the run does not get that far). -/
def sample_frame (abi : EnumSize) (h t c : Nat) : State :=
  (delivered abi h t c).getD boot

/-- State with a conversion in flight: `dht22_start(DHT22_2MS)` after `dht22_init`. -/
def in_flight : State :=
  ((dht22_start DHT22_2MS init_state).map Prod.snd).getD boot

/-- A sensor that stops answering, polled without reset: the engine takes the
first start word and then hangs in the frame; four more cycles of
`dht22_start(DHT22_2MS)` and `dht22_get_data_blocking(false)` time out, each
leaving its start word in the TX FIFO; the last `dht22_start` is in flight. -/
def stuck_engine_ops : List Op :=
  [Op.start DHT22_2MS, Op.pull, Op.get false,
   Op.start DHT22_2MS, Op.get false,
   Op.start DHT22_2MS, Op.get false,
   Op.start DHT22_2MS, Op.get false,
   Op.start DHT22_2MS]

/-- State reached by `stuck_engine_ops`: gate busy, TX FIFO full (`boot` when
the run does not get that far). -/
def tx_full_busy : State :=
  (run binary32 EnumSize.byte stuck_engine_ops init_state).getD boot

/-- State reached by `stuck_engine_ops` followed by one more
`dht22_get_data_blocking(false)`: gate ready, TX FIFO full. -/
def tx_full_ready : State :=
  (run binary32 EnumSize.byte (stuck_engine_ops ++ [Op.get false]) init_state).getD boot

/-! ## Byte extraction -/

theorem and_ff (w : Nat) : w &&& 255 = w % 256 := by
  have h : (255 : Nat) = 2 ^ 8 - 1 := by decide
  rw [h, Nat.and_pow_two_sub_one_eq_mod]

theorem and_7f (b : Nat) : b &&& 127 = b % 128 := by
  have h : (127 : Nat) = 2 ^ 7 - 1 := by decide
  rw [h, Nat.and_pow_two_sub_one_eq_mod]

theorem hi_byte (w : Nat) : (w &&& 65280) >>> 8 = w / 256 % 256 := by
  have h : (w &&& ((2 ^ 8 - 1) <<< 8)) >>> 8 = (w >>> 8) &&& (2 ^ 8 - 1) := by
    apply Nat.eq_of_testBit_eq
    intro i
    rw [Nat.testBit_shiftRight, Nat.testBit_and, Nat.testBit_and, Nat.testBit_shiftRight,
      Nat.testBit_shiftLeft, Nat.testBit_two_pow_sub_one, Nat.testBit_two_pow_sub_one]
    simp
  have e : (65280 : Nat) = (2 ^ 8 - 1) <<< 8 := by decide
  rw [e, h, Nat.and_pow_two_sub_one_eq_mod, Nat.shiftRight_eq_div_pow]

/-! ## The three functions, path by path -/

/-- The decode block always ends in the `DATA_OK` branch: the comparison of line
120 reads back byte 6, which line 119 has just set to `calcd_cs`. -/
theorem decode_raw_spec (rnd : ℚ → ℚ) (abi : EnumSize) (d : dht22data) :
    ∃ d1, decode_raw rnd abi d = some d1 ∧ d1.status = DATA_OK ∧
      d1.temperature = rnd (spec_temperature (d.raw_data1 / 256 % 256) (d.raw_data1 % 256)) ∧
      d1.humidity = rnd (spec_humidity d.raw_data0) ∧
      d1.raw_data0 = d.raw_data0 ∧ d1.raw_data1 = d.raw_data1 ∧ d1.raw_data2 = d.raw_data2 ∧
      d1.calculated_checksum =
        (d.raw_data0 / 256 % 256 + d.raw_data0 % 256 + d.raw_data1 / 256 % 256
          + d.raw_data1 % 256) % 256 := by
  have hz : ∀ x : Nat, x % 256 / 256 % 256 = 0 := by intro x; omega
  have hs : (127 < d.raw_data1 / 256 % 256) ↔ (d.raw_data1 / 256 % 256 / 128 % 2 = 1) := by omega
  cases abi <;>
  simp [decode_raw, load_raw, store_raw, raw_data_elem, byte7, hi_byte, and_ff, and_7f,
    spec_temperature, spec_humidity, hz, hs]

/-- Wait succeeded, status `DATA_RAW`. -/
theorem get_data_raw (rnd : ℚ → ℚ) (abi : EnumSize) (rf : Bool) (s : State)
    (hperm : 0 < s.in_progress.permits) (hraw : s.data.status = DATA_RAW) :
    ∃ d1, decode_raw rnd abi s.data = some d1 ∧
      dht22_get_data_blocking rnd abi rf s = some (d1,
        { s with data := d1,
                 in_progress := sem_release { s.in_progress with
                   permits := s.in_progress.permits - 1 } }) := by
  obtain ⟨d1, hd, _⟩ := decode_raw_spec rnd abi s.data
  refine ⟨d1, hd, ?_⟩
  simp [dht22_get_data_blocking, sem_acquire_timeout_ms, hperm, hraw, hd]

/-- Wait succeeded, status other than `DATA_RAW`: `data` is returned as it is. -/
theorem get_data_other (rnd : ℚ → ℚ) (abi : EnumSize) (rf : Bool) (s : State)
    (hperm : 0 < s.in_progress.permits) (hraw : s.data.status ≠ DATA_RAW) :
    dht22_get_data_blocking rnd abi rf s = some (s.data,
      { s with in_progress := sem_release { s.in_progress with
                 permits := s.in_progress.permits - 1 } }) := by
  simp [dht22_get_data_blocking, sem_acquire_timeout_ms, hperm, hraw]

/-- Wait timed out. -/
theorem get_data_timeout (rnd : ℚ → ℚ) (abi : EnumSize) (rf : Bool) (s : State)
    (hperm : s.in_progress.permits = 0) :
    dht22_get_data_blocking rnd abi rf s =
      some ({ (if rf then dht22_reset s else s).data with status := PIO_RESET },
        { (if rf then dht22_reset s else s) with
            data := { (if rf then dht22_reset s else s).data with status := PIO_RESET },
            in_progress := sem_release (if rf then dht22_reset s else s).in_progress }) := by
  cases rf <;> simp [dht22_get_data_blocking, sem_acquire_timeout_ms, hperm]

/-- Handler with a queue depth other than 3. -/
theorem pio_irq_other (abi : EnumSize) (s : State) (h : s.rx_fifo.length ≠ 3) :
    pio_irq abi s = some (pio_interrupt_clear
      { pio_sm_clear_fifos s with in_progress := sem_release s.in_progress }) := by
  simp [pio_irq, pio_sm_get_rx_fifo_level, h, pio_sm_clear_fifos]

/-- Handler with exactly three words queued. -/
theorem pio_irq_three (abi : EnumSize) (s : State) (a b c : Nat) (h : s.rx_fifo = [a, b, c]) :
    ∃ d, store_raw abi { s.data with raw_data0 := a % 65536, raw_data1 := b % 65536 }
          CHECKSUM (c % 65536) = some d ∧
      pio_irq abi s = some (pio_interrupt_clear
        { s with rx_fifo := [], data := { d with status := DATA_RAW },
                 in_progress := sem_release s.in_progress }) := by
  cases abi <;>
  simp [pio_irq, pio_sm_get_rx_fifo_level, h, pio_sm_get_blocking, store_raw]

/-- A start with the gate ready and a free TX slot. -/
theorem start_ready (low_ms : Nat) (s : State) (hinit : s.is_init = true)
    (hperm : 0 < s.in_progress.permits) (hroom : s.tx_fifo.length < TX_FIFO_DEPTH) :
    dht22_start low_ms s = some (STARTED_OK,
      { s with tx_fifo := s.tx_fifo ++ [low_ms],
               in_progress := { s.in_progress with permits := s.in_progress.permits - 1 } }) := by
  have h0 : s.in_progress.permits ≠ 0 := by omega
  simp [dht22_start, hinit, sem_available, pio_sm_put_blocking, sem_acquire_blocking, hperm, h0,
    hroom]

/-- A start with the gate ready and the TX FIFO full does not return. -/
theorem start_full (low_ms : Nat) (s : State) (hinit : s.is_init = true)
    (hperm : 0 < s.in_progress.permits) (hfull : ¬ s.tx_fifo.length < TX_FIFO_DEPTH) :
    dht22_start low_ms s = none := by
  have h0 : s.in_progress.permits ≠ 0 := by omega
  simp [dht22_start, hinit, sem_available, pio_sm_put_blocking, h0, hfull]

/-- Values that binary32 holds exactly, and one that it does not. -/
theorem binary32_20 : binary32 20 = 20 := by
  unfold binary32
  rw [if_neg (by norm_num), if_neg (by norm_num)]
  simp only [binary32_shift, rne]
  norm_num [Nat.log2]

theorem binary32_50 : binary32 50 = 50 := by
  unfold binary32
  rw [if_neg (by norm_num), if_neg (by norm_num)]
  simp only [binary32_shift, rne]
  norm_num [Nat.log2]

theorem binary32_neg_5 : binary32 (-5) = -5 := by
  unfold binary32
  rw [if_neg (by norm_num), if_pos (by norm_num)]
  simp only [binary32_shift, rne]
  norm_num [Nat.log2]

theorem binary32_501_tenths : binary32 (501 / 10) = 6566707 / 131072 := by
  have l1 : Nat.log2 10 = 3 := by simp [Nat.log2]
  have l2 : Nat.log2 501 = 8 := by simp [Nat.log2]
  have hs : binary32_shift 501 10 = 18 := by
    simp [binary32_shift, l1, l2]
  have hr : rne 131334144 10 = 13133414 := by
    simp [rne]
  unfold binary32
  rw [if_neg (by norm_num), if_neg (by norm_num)]
  norm_num [hs, hr]

/-- Handler with three words queued, by its effect: the frame is stored, the
low byte of the third word lands in `calculated_checksum`, the gate is ready. -/
theorem pio_irq_frame (abi : EnumSize) (s : State) (a b c : Nat) (h : s.rx_fifo = [a, b, c])
    (hmax : s.in_progress.max_permits = 1) :
    ∃ s2, pio_irq abi s = some s2 ∧ s2.data.status = DATA_RAW ∧
      s2.data.raw_data0 = a % 65536 ∧ s2.data.raw_data1 = b % 65536 ∧
      s2.data.calculated_checksum = c % 65536 % 256 ∧
      s2.in_progress.permits = max s.in_progress.permits 1 ∧
      s2.in_progress.max_permits = 1 ∧ s2.is_init = s.is_init ∧ s2.rx_fifo = [] := by
  obtain ⟨d, hstore, hirq⟩ := pio_irq_three abi s a b c h
  refine ⟨_, hirq, ?_⟩
  have hp : (sem_release s.in_progress).permits = max s.in_progress.permits 1 ∧
      (sem_release s.in_progress).max_permits = 1 := by
    unfold sem_release
    split
    · constructor
      · simp only []; omega
      · exact hmax
    · constructor
      · omega
      · exact hmax
  cases abi <;> simp [store_raw] at hstore <;> subst hstore <;>
    simp [pio_interrupt_clear, hp.1, hp.2]

/-- Wait succeeded on a raw frame, by its effect. -/
theorem get_data_raw_ok (rnd : ℚ → ℚ) (abi : EnumSize) (rf : Bool) (s : State)
    (hperm : 0 < s.in_progress.permits) (hraw : s.data.status = DATA_RAW) :
    ∃ r s1, dht22_get_data_blocking rnd abi rf s = some (r, s1) ∧ r.status = DATA_OK ∧
      r.temperature =
        rnd (spec_temperature (s.data.raw_data1 / 256 % 256) (s.data.raw_data1 % 256)) ∧
      r.humidity = rnd (spec_humidity s.data.raw_data0) ∧
      r.calculated_checksum =
        (s.data.raw_data0 / 256 % 256 + s.data.raw_data0 % 256 + s.data.raw_data1 / 256 % 256
          + s.data.raw_data1 % 256) % 256 ∧
      s1.data = r ∧
      s1.in_progress = sem_release { s.in_progress with permits := s.in_progress.permits - 1 } ∧
      s1.is_init = s.is_init := by
  obtain ⟨d1, hd, hg⟩ := get_data_raw rnd abi rf s hperm hraw
  obtain ⟨d2, hd2, hok, ht, hh, _, _, _, hcs⟩ := decode_raw_spec rnd abi s.data
  rw [hd] at hd2
  cases hd2
  exact ⟨d1, _, hg, hok, ht, hh, hcs, rfl, rfl, rfl⟩

/-! ## Invariants along a run -/

theorem step_is_init (rnd : ℚ → ℚ) (abi : EnumSize) (o : Op) (s s1 : State) (h : s.is_init = true)
    (hs : step rnd abi o s = some s1) : s1.is_init = true := by
  cases o with
  | init pin dbg off sm =>
    simp [step, dht22_init, h] at hs
    subst hs; exact h
  | start low_ms =>
    by_cases hp : 0 < s.in_progress.permits
    · by_cases hroom : s.tx_fifo.length < TX_FIFO_DEPTH
      · simp [step, start_ready low_ms s h hp hroom] at hs
        subst hs; exact h
      · simp [step, start_full low_ms s h hp hroom] at hs
    · have h0 : s.in_progress.permits = 0 := by omega
      simp [step, dht22_start, h, sem_available, h0] at hs
      subst hs; exact h
  | pull =>
    simp [step, engine_pull] at hs
    subst hs; exact h
  | engine ws =>
    simp [step, engine_done] at hs
    subst hs; exact h
  | irq =>
    by_cases hl : s.rx_fifo.length = 3
    · obtain ⟨a, b, c, habc⟩ := List.length_eq_three.mp hl
      obtain ⟨d, _, hd⟩ := pio_irq_three abi s a b c habc
      simp [step, hd, pio_interrupt_clear] at hs
      subst hs; exact h
    · simp [step, pio_irq_other abi s hl, pio_interrupt_clear, pio_sm_clear_fifos] at hs
      subst hs; exact h
  | get rf =>
    by_cases hp : 0 < s.in_progress.permits
    · by_cases hr : s.data.status = DATA_RAW
      · obtain ⟨d1, _, hd⟩ := get_data_raw rnd abi rf s hp hr
        simp [step, hd] at hs
        subst hs; exact h
      · simp [step, get_data_other rnd abi rf s hp hr] at hs
        subst hs; exact h
    · have h0 : s.in_progress.permits = 0 := by omega
      simp [step, get_data_timeout rnd abi rf s h0] at hs
      subst hs
      cases rf <;> simp [dht22_reset, dht22pio_program_init, pio_sm_clear_fifos, h]
  | reset =>
    simp [step, dht22_reset, dht22pio_program_init, pio_sm_clear_fifos] at hs
    subst hs; exact h

theorem run_is_init (rnd : ℚ → ℚ) (abi : EnumSize) (ops : List Op) :
    ∀ (s s1 : State), s.is_init = true → run rnd abi ops s = some s1 → s1.is_init = true := by
  induction ops with
  | nil =>
    intro s s1 h hr
    simp [run] at hr
    subst hr; exact h
  | cons o os ih =>
    intro s s1 h hr
    cases hstep : step rnd abi o s with
    | none => simp [run, hstep] at hr
    | some s2 =>
      simp [run, hstep] at hr
      exact ih s2 s1 (step_is_init rnd abi o s s2 h hstep) hr

theorem sem_release_ready (sem : semaphore_t) (hmax : sem.max_permits = 1)
    (hle : sem.permits ≤ 1) :
    (sem_release sem).permits = 1 ∧ (sem_release sem).max_permits = 1 := by
  unfold sem_release
  split
  · constructor
    · simp only []; omega
    · exact hmax
  · constructor
    · omega
    · exact hmax

theorem step_initialised (rnd : ℚ → ℚ) (abi : EnumSize) (o : Op) (s s1 : State) (h : Initialised s)
    (hs : step rnd abi o s = some s1) : Initialised s1 := by
  obtain ⟨hi, hmax, hle⟩ := h
  refine ⟨step_is_init rnd abi o s s1 hi hs, ?_⟩
  cases o with
  | init pin dbg off sm =>
    simp [step, dht22_init, hi] at hs
    subst hs; exact ⟨hmax, hle⟩
  | start low_ms =>
    by_cases hp : 0 < s.in_progress.permits
    · by_cases hroom : s.tx_fifo.length < TX_FIFO_DEPTH
      · simp [step, start_ready low_ms s hi hp hroom] at hs
        subst hs
        exact ⟨hmax, by simp only []; omega⟩
      · simp [step, start_full low_ms s hi hp hroom] at hs
    · have h0 : s.in_progress.permits = 0 := by omega
      simp [step, dht22_start, hi, sem_available, h0] at hs
      subst hs; exact ⟨hmax, hle⟩
  | pull =>
    simp [step, engine_pull] at hs
    subst hs; exact ⟨hmax, hle⟩
  | engine ws =>
    simp [step, engine_done] at hs
    subst hs; exact ⟨hmax, hle⟩
  | irq =>
    by_cases hl : s.rx_fifo.length = 3
    · obtain ⟨a, b, c, habc⟩ := List.length_eq_three.mp hl
      obtain ⟨s2, hirq, _, _, _, _, hp, hm, _⟩ := pio_irq_frame abi s a b c habc hmax
      simp [step, hirq] at hs
      subst hs
      exact ⟨hm, by omega⟩
    · have hr := sem_release_ready s.in_progress hmax hle
      simp [step, pio_irq_other abi s hl, pio_interrupt_clear, pio_sm_clear_fifos] at hs
      subst hs
      exact ⟨hr.2, by simp only [hr.1]; omega⟩
  | get rf =>
    by_cases hp : 0 < s.in_progress.permits
    · have hr := sem_release_ready { s.in_progress with permits := s.in_progress.permits - 1 }
        hmax (by simp only []; omega)
      by_cases hraw : s.data.status = DATA_RAW
      · obtain ⟨d1, _, hd⟩ := get_data_raw rnd abi rf s hp hraw
        simp [step, hd] at hs
        subst hs
        exact ⟨hr.2, by simp only [hr.1]; omega⟩
      · simp [step, get_data_other rnd abi rf s hp hraw] at hs
        subst hs
        exact ⟨hr.2, by simp only [hr.1]; omega⟩
    · have h0 : s.in_progress.permits = 0 := by omega
      have hr := sem_release_ready s.in_progress hmax hle
      simp [step, get_data_timeout rnd abi rf s h0] at hs
      subst hs
      cases rf <;> simp [dht22_reset, dht22pio_program_init, pio_sm_clear_fifos, hr.1, hr.2]
  | reset =>
    simp [step, dht22_reset, dht22pio_program_init, pio_sm_clear_fifos] at hs
    subst hs; exact ⟨hmax, hle⟩

/-- Every state reached by a run that starts in an initialised state is
initialised: the semaphore keeps one slot and never holds more than one permit. -/
theorem run_initialised (rnd : ℚ → ℚ) (abi : EnumSize) (ops : List Op) :
    ∀ (s s1 : State), Initialised s → run rnd abi ops s = some s1 → Initialised s1 := by
  induction ops with
  | nil =>
    intro s s1 h hr
    simp [run] at hr
    subst hr; exact h
  | cons o os ih =>
    intro s s1 h hr
    cases hstep : step rnd abi o s with
    | none => simp [run, hstep] at hr
    | some s2 =>
      simp [run, hstep] at hr
      exact ih s2 s1 (step_initialised rnd abi o s s2 h hstep) hr

theorem init_again (pin : Nat) (dbg : Bool) (off sm : Nat) (s : State) (h : s.is_init = true) :
    dht22_init pin dbg off sm s = (INIT_ALREADY, s) := by
  simp [dht22_init, h]

/-! ## Claims -/

/-- C1 (fails on the code). A frame whose checksum byte does not match is still
reported as `DATA_OK`: words `0x01F4`, `0x00C8` with checksum word `0x0000`
(the matching byte is `0xBD`) are delivered by the handler, the state holds
`DATA_RAW` with a permit, and `dht22_get_data_blocking` answers `DATA_OK`
under either enum size, where the claim requires `DATA_CHECKSUM_FAIL`. -/
theorem C1_mismatched_checksum_reported_ok :
    (0x0000 &&& 0xFF) ≠ (0x01 + 0xF4 + 0x00 + 0xC8) % 256 ∧
    (∃ s r s1, delivered EnumSize.byte 0x01F4 0x00C8 0x0000 = some s ∧
      s.data.status = DATA_RAW ∧ 0 < s.in_progress.permits ∧
      dht22_get_data_blocking binary32 EnumSize.byte true s = some (r, s1) ∧
      r.status = DATA_OK) ∧
    (∃ s r s1, delivered EnumSize.word 0x01F4 0x00C8 0x0000 = some s ∧
      s.data.status = DATA_RAW ∧ 0 < s.in_progress.permits ∧
      dht22_get_data_blocking binary32 EnumSize.word true s = some (r, s1) ∧
      r.status = DATA_OK) := by
  refine ⟨by decide, ⟨_, _, _, rfl, rfl, by decide, rfl, rfl⟩, ⟨_, _, _, rfl, rfl, by decide, rfl, rfl⟩⟩

/-- C2. With a raw frame stored (status `DATA_RAW`) and the gate acquired,
`dht22_get_data_blocking` returns, and whenever the returned status is
`DATA_OK` the returned temperature is `s * ((t_hi & 0x7F) * 256 + t_lo) / 10`
with `s = -1` exactly when bit 7 of `t_hi` is set, and the returned humidity
is `humidity_raw / 10`, each under the rounding `rnd` of the division: as exact
rationals for `rnd` the identity, as binary32 values for `rnd = binary32`. -/
theorem C2_decoded_values (rnd : ℚ → ℚ) (abi : EnumSize) (rf : Bool) (s : State)
    (hperm : 0 < s.in_progress.permits) (hraw : s.data.status = DATA_RAW) :
    ∃ r s1, dht22_get_data_blocking rnd abi rf s = some (r, s1) ∧
      (r.status = DATA_OK →
        r.temperature =
          rnd ((if s.data.raw_data1 / 256 % 256 / 128 % 2 = 1 then (-1 : ℚ) else 1)
            * ((((s.data.raw_data1 / 256 % 256) % 128) * 256 + s.data.raw_data1 % 256 : Nat) : ℚ)
            / 10) ∧
        r.humidity = rnd ((s.data.raw_data0 : ℚ) / 10)) := by
  obtain ⟨d1, hd, hg⟩ := get_data_raw rnd abi rf s hperm hraw
  obtain ⟨d2, hd2, _, ht, hh, _⟩ := decode_raw_spec rnd abi s.data
  rw [hd] at hd2
  cases hd2
  exact ⟨d1, _, hg, fun _ => ⟨ht, hh⟩⟩

/-- C2 at the two frames of the specification, over exact rationals (`rnd` the
identity): `0x01F4`, `0x00C8`, `0xBD` gives `DATA_OK`, humidity 50 and temperature
20; temperature word `0x8032` gives temperature -5. -/
theorem C2_decoded_values_witness :
    (∃ r s1, delivered EnumSize.byte 0x01F4 0x00C8 0xBD
        = some (sample_frame EnumSize.byte 0x01F4 0x00C8 0xBD) ∧
      dht22_get_data_blocking id EnumSize.byte true
        (sample_frame EnumSize.byte 0x01F4 0x00C8 0xBD) = some (r, s1) ∧
      r.status = DATA_OK ∧ r.temperature = 20 ∧ r.humidity = 50) ∧
    (∃ r s1, delivered EnumSize.word 0x01F4 0x8032 0xA7
        = some (sample_frame EnumSize.word 0x01F4 0x8032 0xA7) ∧
      dht22_get_data_blocking id EnumSize.word true
        (sample_frame EnumSize.word 0x01F4 0x8032 0xA7) = some (r, s1) ∧
      r.status = DATA_OK ∧ r.temperature = -5 ∧ r.humidity = 50) := by
  constructor
  · obtain ⟨r, s1, hg, himp⟩ := C2_decoded_values id EnumSize.byte true
      (sample_frame EnumSize.byte 0x01F4 0x00C8 0xBD) (by decide) (by decide)
    have hst : (dht22_get_data_blocking id EnumSize.byte true
        (sample_frame EnumSize.byte 0x01F4 0x00C8 0xBD)).map (fun p => p.1.status)
        = some DATA_OK := rfl
    rw [hg] at hst
    have hok : r.status = DATA_OK := by simpa using hst
    have e0 : (sample_frame EnumSize.byte 0x01F4 0x00C8 0xBD).data.raw_data0 = 500 := rfl
    have e1 : (sample_frame EnumSize.byte 0x01F4 0x00C8 0xBD).data.raw_data1 = 200 := rfl
    obtain ⟨ht, hh⟩ := himp hok
    rw [e1] at ht
    rw [e0] at hh
    refine ⟨r, s1, rfl, hg, hok, ?_, ?_⟩
    · rw [ht]; norm_num
    · rw [hh]; norm_num
  · obtain ⟨r, s1, hg, himp⟩ := C2_decoded_values id EnumSize.word true
      (sample_frame EnumSize.word 0x01F4 0x8032 0xA7) (by decide) (by decide)
    have hst : (dht22_get_data_blocking id EnumSize.word true
        (sample_frame EnumSize.word 0x01F4 0x8032 0xA7)).map (fun p => p.1.status)
        = some DATA_OK := rfl
    rw [hg] at hst
    have hok : r.status = DATA_OK := by simpa using hst
    have e0 : (sample_frame EnumSize.word 0x01F4 0x8032 0xA7).data.raw_data0 = 500 := rfl
    have e1 : (sample_frame EnumSize.word 0x01F4 0x8032 0xA7).data.raw_data1 = 32818 := rfl
    obtain ⟨ht, hh⟩ := himp hok
    rw [e1] at ht
    rw [e0] at hh
    refine ⟨r, s1, rfl, hg, hok, ?_, ?_⟩
    · rw [ht]; norm_num
    · rw [hh]; norm_num

/-- C3 (fails on the code as stated). Two inputs. First, the state
`tx_full_ready` (reached after a sensor stopped answering and four cycles
timed out without reset) is initialised with the gate ready, yet `dht22_start`
does not return `STARTED_OK`: it waits on the full TX FIFO. Second, the valid
frame `0x01F5`, `0x00C9`, `0xBF` delivered after `dht22_init` reads back with
status `DATA_OK` and humidity `6566707 / 131072`, the binary32 nearest to 50.1,
which is not the encoded `501 / 10`. -/
theorem C3_round_trip_counterexample :
    (run binary32 EnumSize.byte (stuck_engine_ops ++ [Op.get false]) init_state
        = some tx_full_ready ∧
      Initialised tx_full_ready ∧ tx_full_ready.in_progress.permits = 1 ∧
      dht22_start DHT22_2MS tx_full_ready = none) ∧
    (∃ s1 s2 r s3, dht22_start DHT22_2MS init_state = some (STARTED_OK, s1) ∧
      pio_irq EnumSize.byte { s1 with rx_fifo := [0x01F5, 0x00C9, 0xBF] } = some s2 ∧
      dht22_get_data_blocking binary32 EnumSize.byte true s2 = some (r, s3) ∧
      r.status = DATA_OK ∧ r.humidity = 6566707 / 131072 ∧
      r.humidity ≠ spec_humidity 0x01F5) := by
  refine ⟨⟨rfl, by decide, by decide, rfl⟩, ?_⟩
  have e : binary32 (((501 : Nat) : ℚ) / 10) = 6566707 / 131072 := by
    have c : ((501 : Nat) : ℚ) / 10 = 501 / 10 := by norm_num
    rw [c]; exact binary32_501_tenths
  refine ⟨_, _, _, _, rfl, rfl, rfl, rfl, ?_, ?_⟩
  · exact e
  · show binary32 (((501 : Nat) : ℚ) / 10) ≠ spec_humidity 0x01F5
    rw [e]
    norm_num [spec_humidity]

/-- C3 (amended). Round trip of one cycle: from an initialised state with the
gate ready and a free slot in the TX FIFO, `dht22_start` returns `STARTED_OK`;
`pio_irq` run with exactly the 16-bit words `h`, `t`, `c` in the RX FIFO,
`c & 0xFF` being the byte sum of `h` and `t` modulo 256, stores the frame;
`dht22_get_data_blocking` then returns `DATA_OK` with humidity the rounding of
`h / 10` and temperature the rounding of the sign-magnitude value of `t` over
10, where the rounding `rnd` is that of the `float` division (`binary32` on the
target, the identity over exact rationals). -/
theorem C3_round_trip (rnd : ℚ → ℚ) (abi : EnumSize) (rf : Bool) (s : State)
    (low_ms h t c : Nat)
    (hinit : Initialised s) (hready : s.in_progress.permits = 1)
    (hroom : s.tx_fifo.length < TX_FIFO_DEPTH)
    (hh : h < 65536) (ht : t < 65536) (_hc : c < 65536)
    (hsum : c &&& 0xFF = (h / 256 + h % 256 + t / 256 + t % 256) % 256) :
    ∃ s1 s2 r s3, dht22_start low_ms s = some (STARTED_OK, s1) ∧
      s1.tx_fifo = s.tx_fifo ++ [low_ms] ∧ s1.in_progress.permits = 0 ∧
      pio_irq abi { s1 with rx_fifo := [h, t, c] } = some s2 ∧
      dht22_get_data_blocking rnd abi rf s2 = some (r, s3) ∧
      r.status = DATA_OK ∧ r.humidity = rnd (spec_humidity h) ∧
      r.temperature = rnd (spec_temperature (t / 256) (t % 256)) ∧
      r.calculated_checksum = c &&& 0xFF ∧ s3.in_progress.permits = 1 := by
  obtain ⟨hi, hmax, _⟩ := hinit
  have hstart := start_ready low_ms s hi (by omega) hroom
  obtain ⟨s2, hirq, hraw, h0, h1, _, hp, hm2, _⟩ := pio_irq_frame abi
    { ({ s with tx_fifo := s.tx_fifo ++ [low_ms],
                in_progress := { s.in_progress with permits := s.in_progress.permits - 1 } }
        : State) with rx_fifo := [h, t, c] } h t c rfl hmax
  obtain ⟨r, s3, hget, hok, htemp, hhum, hcs, _, hsem, _⟩ :=
    get_data_raw_ok rnd abi rf s2 (by omega) hraw
  have hp2 : s2.in_progress.permits = 1 := by
    simp only [hready] at hp
    omega
  have hrel : s3.in_progress.permits = 1 := by
    rw [hsem]; simp [sem_release, hp2, hm2]
  have eh : h % 65536 = h := Nat.mod_eq_of_lt hh
  have et : t % 65536 = t := Nat.mod_eq_of_lt ht
  have t256 : t / 256 % 256 = t / 256 := Nat.mod_eq_of_lt (by omega)
  have h256 : h / 256 % 256 = h / 256 := Nat.mod_eq_of_lt (by omega)
  rw [h0, eh] at hhum
  rw [h1, et, t256] at htemp
  rw [h0, h1, eh, et, t256, h256, ← hsum] at hcs
  exact ⟨_, s2, r, s3, hstart, rfl, by simp [hready], hirq, hget, hok, hhum, htemp, hcs, hrel⟩

/-- C3 (amended) at `init_state` with the frame `0x01F4`, `0x00C8`, `0xBD` and
binary32 rounding. -/
theorem C3_round_trip_witness :
    ∃ s1 s2 r s3, dht22_start DHT22_2MS init_state = some (STARTED_OK, s1) ∧
      s1.tx_fifo = init_state.tx_fifo ++ [DHT22_2MS] ∧ s1.in_progress.permits = 0 ∧
      pio_irq EnumSize.byte { s1 with rx_fifo := [0x01F4, 0x00C8, 0xBD] } = some s2 ∧
      dht22_get_data_blocking binary32 EnumSize.byte true s2 = some (r, s3) ∧
      r.status = DATA_OK ∧ r.humidity = binary32 (spec_humidity 0x01F4) ∧
      r.temperature = binary32 (spec_temperature (0x00C8 / 256) (0x00C8 % 256)) ∧
      r.calculated_checksum = 0xBD &&& 0xFF ∧ s3.in_progress.permits = 1 :=
  C3_round_trip binary32 EnumSize.byte true init_state DHT22_2MS 0x01F4 0x00C8 0xBD
    (by decide) (by decide) (by decide) (by decide) (by decide) (by decide) (by decide)

/-- C4. `dht22_start` on an initialised state whose semaphore holds no permit
returns `STARTED_ALREADY` and leaves the whole state as it was: nothing is
written to the TX FIFO, and frame, status, decoded values and gate are kept. -/
theorem C4_start_while_busy (low_ms : dht22_start_ms_t) (s : State)
    (hinit : s.is_init = true) (hbusy : s.in_progress.permits = 0) :
    dht22_start low_ms s = some (STARTED_ALREADY, s) := by
  simp [dht22_start, hinit, sem_available, hbusy]

/-- C4 at the state with a conversion in flight. -/
theorem C4_start_while_busy_witness :
    dht22_start DHT22_1MS in_flight = some (STARTED_ALREADY, in_flight) :=
  C4_start_while_busy DHT22_1MS in_flight (by decide) (by decide)

/-- C5 (fails on the code as stated). In the initialised state `tx_full_busy` (a
sensor stopped answering, four cycles timed out without reset, a fifth start
is in flight) `dht22_get_data_blocking(false)` times out and returns with the
semaphore holding one permit, but the `dht22_start` issued next does not
return `STARTED_OK`: it waits on the full TX FIFO. -/
theorem C5_start_after_timeouts_without_reset :
    run binary32 EnumSize.byte stuck_engine_ops init_state = some tx_full_busy ∧
    Initialised tx_full_busy ∧
    (∃ r s1, dht22_get_data_blocking binary32 EnumSize.byte false tx_full_busy = some (r, s1) ∧
      r.status = PIO_RESET ∧ s1.in_progress.permits = 1 ∧
      dht22_start DHT22_2MS s1 = none) := by
  refine ⟨rfl, by decide, _, _, rfl, rfl, rfl, rfl⟩

/-- C5 (amended). From every initialised state, for both values of
`reset_on_failure` and both outcomes of the bounded wait,
`dht22_get_data_blocking` returns with the semaphore holding exactly one
permit. A `dht22_start` issued next returns `STARTED_OK` whenever the TX FIFO
then has a free slot, and always after a timeout with `reset_on_failure` true,
because `dht22_reset` has emptied the FIFOs. -/
theorem C5_gate_ready_on_return (rnd : ℚ → ℚ) (abi : EnumSize) (rf : Bool)
    (low_ms : dht22_start_ms_t) (s : State) (hinit : Initialised s) :
    ∃ r s1, dht22_get_data_blocking rnd abi rf s = some (r, s1) ∧
      s1.in_progress.permits = 1 ∧
      (s1.tx_fifo.length < TX_FIFO_DEPTH →
        ∃ s2, dht22_start low_ms s1 = some (STARTED_OK, s2)) ∧
      (s.in_progress.permits = 0 → rf = true →
        ∃ s2, dht22_start low_ms s1 = some (STARTED_OK, s2)) := by
  obtain ⟨hi, hmax, hle⟩ := hinit
  have key : ∃ r s1, dht22_get_data_blocking rnd abi rf s = some (r, s1) ∧
      s1.in_progress.permits = 1 ∧ s1.is_init = true ∧
      (s.in_progress.permits = 0 → rf = true → s1.tx_fifo = []) := by
    by_cases hp : 0 < s.in_progress.permits
    · have hrel : (sem_release { s.in_progress with
          permits := s.in_progress.permits - 1 }).permits = 1 := by
        have h1 : s.in_progress.permits = 1 := by omega
        simp [sem_release, h1, hmax]
      by_cases hr : s.data.status = DATA_RAW
      · obtain ⟨r, s1, hg, _, _, _, _, _, hsem, hini⟩ := get_data_raw_ok rnd abi rf s hp hr
        exact ⟨r, s1, hg, by rw [hsem]; exact hrel, by rw [hini]; exact hi,
          fun h0 => by omega⟩
      · exact ⟨_, _, get_data_other rnd abi rf s hp hr, hrel, hi, fun h0 => by omega⟩
    · have h0 : s.in_progress.permits = 0 := by omega
      refine ⟨_, _, get_data_timeout rnd abi rf s h0, ?_, ?_, ?_⟩
      · cases rf <;>
          simp [sem_release, dht22_reset, dht22pio_program_init, pio_sm_clear_fifos, h0, hmax]
      · cases rf <;> simp [dht22_reset, dht22pio_program_init, pio_sm_clear_fifos, hi]
      · intro _ hrf
        subst hrf
        simp [dht22_reset, dht22pio_program_init, pio_sm_clear_fifos]
  obtain ⟨r, s1, hg, hp1, hi1, hempty⟩ := key
  refine ⟨r, s1, hg, hp1, ?_, ?_⟩
  · intro hroom
    exact ⟨_, start_ready low_ms s1 hi1 (by omega) hroom⟩
  · intro h0 hrf
    have hroom : s1.tx_fifo.length < TX_FIFO_DEPTH := by
      rw [hempty h0 hrf]; decide
    exact ⟨_, start_ready low_ms s1 hi1 (by omega) hroom⟩

/-- C5 (amended) at `tx_full_busy` with `reset_on_failure` true: the wait times
out, the reset empties the TX FIFO and the next `dht22_start` returns
`STARTED_OK`. -/
theorem C5_gate_ready_on_return_witness :
    ∃ r s1 s2, dht22_get_data_blocking binary32 EnumSize.byte true tx_full_busy = some (r, s1) ∧
      s1.in_progress.permits = 1 ∧ dht22_start DHT22_2MS s1 = some (STARTED_OK, s2) := by
  obtain ⟨r, s1, hg, hp, _, hreset⟩ :=
    C5_gate_ready_on_return binary32 EnumSize.byte true DHT22_2MS tx_full_busy (by decide)
  obtain ⟨s2, hs2⟩ := hreset (by decide) rfl
  exact ⟨r, s1, s2, hg, hp, hs2⟩

/-- C6. After a successful `dht22_start` (initialised, gate ready, a free TX
slot, so that the call returns `STARTED_OK`) with no handler run, the wait of
`dht22_get_data_blocking` expires: the call returns status `PIO_RESET`;
`dht22_reset` runs (one more `dht22pio_program_init`, both FIFOs emptied)
exactly when `reset_on_failure` is true and otherwise the hardware is left
alone; the three frame words, the stored checksum byte and the previously
decoded temperature and humidity are those held before the cycle. -/
theorem C6_timeout_outcome (rnd : ℚ → ℚ) (abi : EnumSize) (rf : Bool)
    (low_ms : dht22_start_ms_t) (s : State) (hinit : Initialised s)
    (hready : s.in_progress.permits = 1) (hroom : s.tx_fifo.length < TX_FIFO_DEPTH) :
    ∃ s1 r s2, dht22_start low_ms s = some (STARTED_OK, s1) ∧
      dht22_get_data_blocking rnd abi rf s1 = some (r, s2) ∧
      r.status = PIO_RESET ∧ s2.data = r ∧
      (rf = true → s2.program_inits = s1.program_inits + 1 ∧ s2.tx_fifo = [] ∧ s2.rx_fifo = []) ∧
      (rf = false → s2.program_inits = s1.program_inits ∧ s2.tx_fifo = s1.tx_fifo ∧
        s2.rx_fifo = s1.rx_fifo) ∧
      r.raw_data0 = s.data.raw_data0 ∧ r.raw_data1 = s.data.raw_data1 ∧
      r.raw_data2 = s.data.raw_data2 ∧ r.calculated_checksum = s.data.calculated_checksum ∧
      r.temperature = s.data.temperature ∧ r.humidity = s.data.humidity := by
  obtain ⟨hi, hmax, _⟩ := hinit
  have hstart := start_ready low_ms s hi (by omega) hroom
  refine ⟨_, _, _, hstart, get_data_timeout rnd abi rf _ (by simp [hready]), ?_⟩
  cases rf <;> simp [dht22_reset, dht22pio_program_init, pio_sm_clear_fifos]

/-- C6 at `init_state`, with and without reset. -/
theorem C6_timeout_outcome_witness :
    (∃ s1 r s2, dht22_start DHT22_2MS init_state = some (STARTED_OK, s1) ∧
      dht22_get_data_blocking binary32 EnumSize.byte true s1 = some (r, s2) ∧
      r.status = PIO_RESET ∧ s2.program_inits = s1.program_inits + 1) ∧
    (∃ s1 r s2, dht22_start DHT22_2MS init_state = some (STARTED_OK, s1) ∧
      dht22_get_data_blocking binary32 EnumSize.byte false s1 = some (r, s2) ∧
      r.status = PIO_RESET ∧ s2.program_inits = s1.program_inits) := by
  constructor
  · obtain ⟨s1, r, s2, h1, h2, h3, _, h4, _⟩ :=
      C6_timeout_outcome binary32 EnumSize.byte true DHT22_2MS init_state
        (by decide) (by decide) (by decide)
    exact ⟨s1, r, s2, h1, h2, h3, (h4 rfl).1⟩
  · obtain ⟨s1, r, s2, h1, h2, h3, _, _, h5, _⟩ :=
      C6_timeout_outcome binary32 EnumSize.byte false DHT22_2MS init_state
        (by decide) (by decide) (by decide)
    exact ⟨s1, r, s2, h1, h2, h3, (h5 rfl).1⟩

/-- C7. With a queue depth other than 3 the handler returns, leaves the RX FIFO
empty, leaves `data` (status and raw frame included) unchanged, and leaves the
semaphore with one permit. -/
theorem C7_handler_short_frame (abi : EnumSize) (s : State) (hinit : Initialised s)
    (hdepth : pio_sm_get_rx_fifo_level s ≠ 3) :
    ∃ s1, pio_irq abi s = some s1 ∧ s1.rx_fifo = [] ∧ s1.data = s.data ∧
      s1.data.status = s.data.status ∧ s1.in_progress.permits = 1 := by
  obtain ⟨_, hmax, hle⟩ := hinit
  refine ⟨_, pio_irq_other abi s hdepth, ?_⟩
  have hp : (sem_release s.in_progress).permits = 1 := by
    unfold sem_release
    split
    · simp only []; omega
    · omega
  simp [pio_interrupt_clear, pio_sm_clear_fifos, hp]

/-- C7 with two words queued while a conversion is in flight. -/
theorem C7_handler_short_frame_witness :
    ∃ s1, pio_irq EnumSize.word (engine_done [0x01F4, 0x00C8] in_flight) = some s1 ∧
      s1.rx_fifo = [] ∧ s1.data = (engine_done [0x01F4, 0x00C8] in_flight).data ∧
      s1.data.status = (engine_done [0x01F4, 0x00C8] in_flight).data.status ∧
      s1.in_progress.permits = 1 :=
  C7_handler_short_frame EnumSize.word (engine_done [0x01F4, 0x00C8] in_flight)
    (by decide) (by decide)

/-- C8. The first `dht22_init` (on a state with `is_init` false) returns
`INIT_OK`, leaves one permit in the semaphore and status `DATA_NONE`; after any
run of library calls, engine completions and handler runs that follows, a
further `dht22_init` with any arguments returns `INIT_ALREADY` and changes
nothing in the state; the same holds in every state in which `is_init` is set. -/
theorem C8_init_once (rnd : ℚ → ℚ) (abi : EnumSize) (s0 : State) (pin : Nat) (dbg : Bool) (off sm : Nat)
    (ops : List Op) (s : State) (pin2 : Nat) (dbg2 : Bool) (off2 sm2 : Nat)
    (h0 : s0.is_init = false)
    (hrun : run rnd abi ops (dht22_init pin dbg off sm s0).2 = some s) :
    (dht22_init pin dbg off sm s0).1 = INIT_OK ∧
    Initialised (dht22_init pin dbg off sm s0).2 ∧
    (dht22_init pin dbg off sm s0).2.in_progress.permits = 1 ∧
    (dht22_init pin dbg off sm s0).2.data.status = DATA_NONE ∧
    dht22_init pin2 dbg2 off2 sm2 s = (INIT_ALREADY, s) ∧
    (∀ st : State, st.is_init = true →
      dht22_init pin2 dbg2 off2 sm2 st = (INIT_ALREADY, st)) := by
  have hfirst : (dht22_init pin dbg off sm s0).2.is_init = true := by
    simp [dht22_init, h0]
  refine ⟨?_, ?_, ?_, ?_, ?_, fun st hst => init_again pin2 dbg2 off2 sm2 st hst⟩
  · simp [dht22_init, h0]
  · simp [Initialised, dht22_init, h0, sem_init, sem_available, sem_release,
      dht22pio_program_init]
  · simp [dht22_init, h0, sem_init, sem_available, sem_release, dht22pio_program_init]
  · simp [dht22_init, h0, sem_init, sem_available, sem_release, dht22pio_program_init]
  · exact init_again pin2 dbg2 off2 sm2 s (run_is_init rnd abi ops _ s hfirst hrun)

/-- C8 on the boot image: `dht22_init(26, true)`, a conversion started, then
`dht22_init(5, false)` while it is in flight. -/
theorem C8_init_once_witness :
    (dht22_init 26 true 0 0 boot).1 = INIT_OK ∧
    Initialised (dht22_init 26 true 0 0 boot).2 ∧
    (dht22_init 26 true 0 0 boot).2.in_progress.permits = 1 ∧
    (dht22_init 26 true 0 0 boot).2.data.status = DATA_NONE ∧
    dht22_init 5 false 1 1 in_flight = (INIT_ALREADY, in_flight) ∧
    (∀ st : State, st.is_init = true → dht22_init 5 false 1 1 st = (INIT_ALREADY, st)) :=
  C8_init_once binary32 EnumSize.byte boot 26 true 0 0 [Op.start DHT22_2MS] in_flight 5 false 1 1
    (by decide) (by rfl)

/-- C9 (fails on the code). `HUMIDITY` and `TEMP` are valid indices of the
three-element `raw_data`, but `CHECKSUM` is 3: the bounds-checked lookup at
`CHECKSUM` is `none` for every record, and the store `raw_data[CHECKSUM] = v`
leaves the three frame words alone and overwrites `calculated_checksum`. -/
theorem C9_checksum_index_outside_raw_data :
    HUMIDITY < RAW_DATA_LEN ∧ TEMP < RAW_DATA_LEN ∧ ¬ CHECKSUM < RAW_DATA_LEN ∧
    (∀ d : dht22data, raw_data_elem d CHECKSUM = none) ∧
    (∀ (abi : EnumSize) (d : dht22data) (v : Nat), ∃ d1,
      store_raw abi d CHECKSUM v = some d1 ∧ d1.calculated_checksum = v % 256 ∧
      d1.raw_data0 = d.raw_data0 ∧ d1.raw_data1 = d.raw_data1 ∧
      d1.raw_data2 = d.raw_data2) := by
  refine ⟨by decide, by decide, by decide, fun d => rfl, ?_⟩
  intro abi d v
  cases abi <;> exact ⟨_, rfl, rfl, rfl, rfl, rfl⟩

/-- C10 (fails on the code). First cycle: the frame `0x01F4`, `0x00C8`, `0xBD` is
delivered and read (`DATA_OK`, 20.0 degrees, 50.0 percent). Second cycle:
`dht22_start` returns `STARTED_OK`, the engine pushes only two words, the
handler clears the queue and stores nothing, and `dht22_get_data_blocking`
again returns `DATA_OK` with the temperature and humidity of the first cycle. -/
theorem C10_stale_reading_reported_ok :
    (∃ sa sb sc r sd,
      run binary32 EnumSize.byte [Op.start DHT22_2MS, Op.engine [0x01F4, 0x00C8, 0xBD], Op.irq,
        Op.get true] init_state = some sa ∧
      dht22_start DHT22_2MS sa = some (STARTED_OK, sb) ∧
      pio_sm_get_rx_fifo_level (engine_done [0x0123, 0x0045] sb) = 2 ∧
      pio_irq EnumSize.byte (engine_done [0x0123, 0x0045] sb) = some sc ∧
      dht22_get_data_blocking binary32 EnumSize.byte true sc = some (r, sd) ∧
      r.status = DATA_OK ∧ r.raw_data0 = 0x01F4 ∧ r.raw_data1 = 0x00C8 ∧
      r.temperature = sa.data.temperature ∧ r.humidity = sa.data.humidity ∧
      r.temperature = 20 ∧ r.humidity = 50) ∧
    (∃ sa sb sc r sd,
      run binary32 EnumSize.word [Op.start DHT22_2MS, Op.engine [0x01F4, 0x00C8, 0xBD], Op.irq,
        Op.get true] init_state = some sa ∧
      dht22_start DHT22_2MS sa = some (STARTED_OK, sb) ∧
      pio_sm_get_rx_fifo_level (engine_done [0x0123, 0x0045] sb) = 2 ∧
      pio_irq EnumSize.word (engine_done [0x0123, 0x0045] sb) = some sc ∧
      dht22_get_data_blocking binary32 EnumSize.word true sc = some (r, sd) ∧
      r.status = DATA_OK ∧ r.raw_data0 = 0x01F4 ∧ r.raw_data1 = 0x00C8 ∧
      r.temperature = sa.data.temperature ∧ r.humidity = sa.data.humidity ∧
      r.temperature = 20 ∧ r.humidity = 50) := by
  constructor
  · refine ⟨_, _, _, _, _, rfl, rfl, rfl, rfl, rfl, rfl, rfl, rfl, rfl, rfl, ?_, ?_⟩
    · show binary32 ((1 : ℚ) * ((((200 / 256 % 256) % 128) * 256 + 200 % 256 : Nat) : ℚ) / 10)
        = 20
      have c : (1 : ℚ) * ((((200 / 256 % 256) % 128) * 256 + 200 % 256 : Nat) : ℚ) / 10 = 20 := by
        norm_num
      rw [c]; exact binary32_20
    · show binary32 (((500 : Nat) : ℚ) / 10) = 50
      have c : ((500 : Nat) : ℚ) / 10 = 50 := by norm_num
      rw [c]; exact binary32_50
  · refine ⟨_, _, _, _, _, rfl, rfl, rfl, rfl, rfl, rfl, rfl, rfl, rfl, rfl, ?_, ?_⟩
    · show binary32 ((1 : ℚ) * ((((200 / 256 % 256) % 128) * 256 + 200 % 256 : Nat) : ℚ) / 10)
        = 20
      have c : (1 : ℚ) * ((((200 / 256 % 256) % 128) * 256 + 200 % 256 : Nat) : ℚ) / 10 = 20 := by
        norm_num
      rw [c]; exact binary32_20
    · show binary32 (((500 : Nat) : ℚ) / 10) = 50
      have c : ((500 : Nat) : ℚ) / 10 = 50 := by norm_num
      rw [c]; exact binary32_50

end DHT22
